import Mathlib

/-!
Verification of the Node bridge conversion layer
(rust/bridge/shared/src/node/convert.rs and rust/bridge/shared/src/node/error.rs).

The embedding below mirrors the Rust source. JavaScript numbers (f64 values)
are modelled as NaN, the two infinities, or a finite rational; the finite
doubles form a subset of the rationals, and every concrete value used in a
statement below is exactly representable as a double. Host-side effects
(thrown exceptions, log lines, GC roots) are made explicit in return values.
Hash functions and other code living outside the two source files (the std
DefaultHasher, the neon runtime) are taken as parameters.
-/

namespace NodeBridge

/-- Host (JavaScript) numbers: an IEEE double is NaN, an infinity, or a
finite value; finite doubles are modelled as rationals. -/
inductive JsNum where
  | nan : JsNum
  | inf : JsNum
  | negInf : JsNum
  | fin : ℚ → JsNum
deriving DecidableEq

/-- f64::is_finite: true exactly for finite values. -/
def JsNum.is_finite : JsNum → Bool
  | .fin _ => true
  | _ => false

/-- f64::fract: the value minus its truncation toward zero (Int.tdiv truncates
toward zero, matching Rust integer truncation); NaN for NaN and infinities. -/
def JsNum.fract : JsNum → JsNum
  | .fin q => .fin (q - ((Int.tdiv q.num q.den : ℤ) : ℚ))
  | _ => .nan

/-- IEEE equality comparison: NaN compares unequal to everything. -/
def JsNum.ieeeEq : JsNum → JsNum → Bool
  | .fin a, .fin b => decide (a = b)
  | .inf, .inf => true
  | .negInf, .negInf => true
  | _, _ => false

/-- IEEE less-or-equal comparison: any comparison involving NaN is false. -/
def JsNum.ieeeLe : JsNum → JsNum → Bool
  | .nan, _ => false
  | _, .nan => false
  | .negInf, _ => true
  | _, .negInf => false
  | _, .inf => true
  | .inf, _ => false
  | .fin a, .fin b => decide (a ≤ b)

/-- RangeInclusive::contains for an f64 range with finite endpoints. -/
def rangeContains (lo hi : ℚ) (v : JsNum) : Bool :=
  JsNum.ieeeLe (.fin lo) v && JsNum.ieeeLe v (.fin hi)

/-- can_convert_js_number_to_int (convert.rs): true if value represents an
integer within the given range. -/
def can_convert_js_number_to_int (value : JsNum) (lo hi : ℚ) : Bool :=
  value.is_finite && JsNum.ieeeEq value.fract (.fin 0) && rangeContains lo hi value

/-- MAX_SAFE_JS_INTEGER (convert.rs): 2 ^ 53 - 1, the maximum safe integer
representable in an f64. -/
def MAX_SAFE_JS_INTEGER : ℚ := 9007199254740991

/-- The numeric cast of an f64 already checked to be a nonnegative in-range
integer, to an unsigned integer type: its integer part as a natural number. -/
def JsNum.toNatCast : JsNum → ℕ
  | .fin q => q.num.toNat
  | _ => 0

/-- The numeric cast of an f64 already checked to be a nonnegative in-range
integer, to a signed integer type: its integer part. -/
def JsNum.toIntCast : JsNum → ℤ
  | .fin q => q.num
  | _ => 0

/-- An error thrown while converting a JavaScript argument. The source
formats a range error message from the offending value and the target type
name; both pieces are recorded structurally here. The type error is the one
thrown by downcast_or_throw. -/
inductive ConvErr where
  | rangeError (value : JsNum) (typeName : String) : ConvErr
  | typeError : ConvErr
deriving DecidableEq

/-- SimpleArgTypeInfo for u64 (convert.rs): accepts finite integers in
0 ..= MAX_SAFE_JS_INTEGER, otherwise throws a range error carrying the value
and the type name. -/
def u64.convert_from (value : JsNum) : Except ConvErr ℕ :=
  if can_convert_js_number_to_int value 0 MAX_SAFE_JS_INTEGER then
    .ok value.toNatCast
  else
    .error (.rangeError value "u64")

/-- SimpleArgTypeInfo for u8 via the full_range_integer macro (convert.rs):
range 0 ..= u8::MAX. -/
def u8.convert_from (value : JsNum) : Except ConvErr ℕ :=
  if can_convert_js_number_to_int value 0 255 then
    .ok value.toNatCast
  else
    .error (.rangeError value "u8")

/-- SimpleArgTypeInfo for u32 via the full_range_integer macro (convert.rs):
range 0 ..= u32::MAX. -/
def u32.convert_from (value : JsNum) : Except ConvErr ℕ :=
  if can_convert_js_number_to_int value 0 4294967295 then
    .ok value.toNatCast
  else
    .error (.rangeError value "u32")

/-- SimpleArgTypeInfo for i32 via the full_range_integer macro (convert.rs):
the range used by the macro is 0.0 ..= i32::MAX, so negative values are
rejected. -/
def i32.convert_from (value : JsNum) : Except ConvErr ℤ :=
  if can_convert_js_number_to_int value 0 2147483647 then
    .ok value.toIntCast
  else
    .error (.rangeError value "i32")

/-- Specification-side predicate: the host value is finite, has zero
fractional part, and lies within 0 ..= hi. -/
def IsExactIntInRange (v : JsNum) (hi : ℚ) : Prop :=
  ∃ n : ℤ, v = .fin (n : ℚ) ∧ 0 ≤ n ∧ (n : ℚ) ≤ hi

theorem fract_zero_iff (q : ℚ) :
    JsNum.ieeeEq (JsNum.fract (.fin q)) (.fin 0) = true ↔ q.den = 1 := by
  simp only [JsNum.fract, JsNum.ieeeEq, decide_eq_true_eq, sub_eq_zero]
  constructor
  · intro h
    rw [h]
    exact Rat.den_intCast _
  · intro h
    have hnum : ((q.num : ℚ)) = q := by
      conv_rhs => rw [← Rat.num_div_den q]
      rw [h]
      simp
    have hden : (q.den : ℤ) = 1 := by exact_mod_cast h
    rw [hden, Int.tdiv_one, hnum]

theorem can_convert_iff_exact (v : JsNum) (hi : ℚ) :
    can_convert_js_number_to_int v 0 hi = true ↔ IsExactIntInRange v hi := by
  cases v with
  | nan =>
    simp [can_convert_js_number_to_int, JsNum.is_finite, IsExactIntInRange]
  | inf =>
    simp [can_convert_js_number_to_int, JsNum.is_finite, IsExactIntInRange]
  | negInf =>
    simp [can_convert_js_number_to_int, JsNum.is_finite, IsExactIntInRange]
  | fin q =>
    simp only [can_convert_js_number_to_int, JsNum.is_finite, Bool.true_and,
      Bool.and_eq_true, fract_zero_iff, rangeContains, JsNum.ieeeLe,
      decide_eq_true_eq, IsExactIntInRange]
    constructor
    · rintro ⟨hden, h0, hhi⟩
      have hnum : ((q.num : ℚ)) = q := by
        conv_rhs => rw [← Rat.num_div_den q]
        rw [hden]
        simp
      refine ⟨q.num, by rw [hnum], ?_, by rw [hnum]; exact hhi⟩
      have := (Rat.num_nonneg (q := q)).mpr h0
      exact this
    · rintro ⟨n, hv, h0, hhi⟩
      cases hv
      refine ⟨Rat.den_intCast n, ⟨?_, hhi⟩⟩
      exact_mod_cast h0

theorem convert_shape {α : Type} (c : Bool) (val : α) (e : ConvErr) (P : Prop)
    (hiff : c = true ↔ P) :
    (((if c then (Except.ok val : Except ConvErr α) else .error e).isOk = true) ↔ P) ∧
    (¬ P → (if c then (Except.ok val : Except ConvErr α) else .error e) = .error e) := by
  constructor
  · cases c <;> simp [Except.isOk, Except.toBool, ← hiff]
  · intro hp
    have hc : c = false := by
      cases c
      · rfl
      · exact absurd (hiff.mp rfl) hp
    simp [hc]

/-- C1: for each integer target type (u8, u32, i32, u64), converting a host
numeric value succeeds exactly when the value is finite, has zero fractional
part, and lies within 0 ..= max_for_type, where the u64 bound is 2 ^ 53 - 1
(the maximum safe host integer) rather than the full u64 range; on failure
the thrown range error carries the offending value and the target type name. -/
theorem int_conversion_succeeds_iff_exact_in_range (v : JsNum) :
    ((u8.convert_from v).isOk = true ↔ IsExactIntInRange v 255) ∧
    (¬ IsExactIntInRange v 255 → u8.convert_from v = .error (.rangeError v "u8")) ∧
    ((u32.convert_from v).isOk = true ↔ IsExactIntInRange v 4294967295) ∧
    (¬ IsExactIntInRange v 4294967295 → u32.convert_from v = .error (.rangeError v "u32")) ∧
    ((i32.convert_from v).isOk = true ↔ IsExactIntInRange v 2147483647) ∧
    (¬ IsExactIntInRange v 2147483647 → i32.convert_from v = .error (.rangeError v "i32")) ∧
    ((u64.convert_from v).isOk = true ↔ IsExactIntInRange v (2 ^ 53 - 1)) ∧
    (¬ IsExactIntInRange v (2 ^ 53 - 1) → u64.convert_from v = .error (.rangeError v "u64")) := by
  have hms : MAX_SAFE_JS_INTEGER = 2 ^ 53 - 1 := by norm_num [MAX_SAFE_JS_INTEGER]
  have h8 := convert_shape (can_convert_js_number_to_int v 0 255) v.toNatCast
    (.rangeError v "u8") (IsExactIntInRange v 255) (can_convert_iff_exact v 255)
  have h32 := convert_shape (can_convert_js_number_to_int v 0 4294967295) v.toNatCast
    (.rangeError v "u32") (IsExactIntInRange v 4294967295) (can_convert_iff_exact v 4294967295)
  have hi32 := convert_shape (can_convert_js_number_to_int v 0 2147483647) v.toIntCast
    (.rangeError v "i32") (IsExactIntInRange v 2147483647) (can_convert_iff_exact v 2147483647)
  have h64 := convert_shape (can_convert_js_number_to_int v 0 MAX_SAFE_JS_INTEGER) v.toNatCast
    (.rangeError v "u64") (IsExactIntInRange v (2 ^ 53 - 1))
    (by rw [hms]; exact can_convert_iff_exact v (2 ^ 53 - 1))
  exact ⟨h8.1, h8.2, h32.1, h32.2, hi32.1, hi32.2, h64.1, h64.2⟩

theorem int_conversion_succeeds_iff_exact_in_range_witness :
    u8.convert_from .nan = .error (.rangeError .nan "u8") ∧
    u32.convert_from .nan = .error (.rangeError .nan "u32") ∧
    i32.convert_from .nan = .error (.rangeError .nan "i32") ∧
    u64.convert_from .nan = .error (.rangeError .nan "u64") :=
  ⟨(int_conversion_succeeds_iff_exact_in_range .nan).2.1 (by simp [IsExactIntInRange]),
   (int_conversion_succeeds_iff_exact_in_range .nan).2.2.2.1 (by simp [IsExactIntInRange]),
   (int_conversion_succeeds_iff_exact_in_range .nan).2.2.2.2.2.1 (by simp [IsExactIntInRange]),
   (int_conversion_succeeds_iff_exact_in_range .nan).2.2.2.2.2.2.2 (by simp [IsExactIntInRange])⟩

/-- roundNearestEven v e: v rounded to the nearest multiple of 2 ^ e, with
ties going to the even multiple. -/
def roundNearestEven (v e : ℕ) : ℕ :=
  let q := v / 2 ^ e
  let r := v % 2 ^ e
  let half := 2 ^ (e - 1)
  if half < r then (q + 1) * 2 ^ e
  else if r < half then q * 2 ^ e
  else if q % 2 = 0 then q * 2 ^ e else (q + 1) * 2 ^ e

/-- The numeric cast of a u64 value to f64: exact below 2 ^ 53, otherwise
IEEE round-to-nearest-even to 53 significant bits. -/
def u64_as_f64 (v : ℕ) : ℕ :=
  if v < 2 ^ 53 then v else roundNearestEven v (Nat.log2 v - 52)

/-- An error thrown while converting a Rust result value to JavaScript; the
source formats its message from the value that would lose precision. -/
inductive ResultErr where
  | precisionLoss (value : ℕ) : ResultErr
deriving DecidableEq

/-- ResultTypeInfo for u64 (convert.rs): cast to f64, throw a range error if
the cast result exceeds MAX_SAFE_JS_INTEGER, otherwise return the number. -/
def u64.convert_into (v : ℕ) : Except ResultErr JsNum :=
  if MAX_SAFE_JS_INTEGER < ((u64_as_f64 v : ℕ) : ℚ) then .error (.precisionLoss v)
  else .ok (.fin ((u64_as_f64 v : ℕ) : ℚ))

theorem u64_as_f64_ge (v : ℕ) (h : 2 ^ 53 ≤ v) : 2 ^ 53 ≤ u64_as_f64 v := by
  have hv0 : v ≠ 0 := by
    intro h0
    rw [h0] at h
    exact absurd h (by norm_num)
  have hlog : 53 ≤ Nat.log2 v := (Nat.le_log2 hv0).mpr h
  have he1 : 1 ≤ Nat.log2 v - 52 := by omega
  have h52e : 52 + (Nat.log2 v - 52) = Nat.log2 v := by omega
  have hself : 2 ^ Nat.log2 v ≤ v := Nat.log2_self_le hv0
  have hq : 2 ^ 52 ≤ v / 2 ^ (Nat.log2 v - 52) := by
    rw [Nat.le_div_iff_mul_le (Nat.pos_pow_of_pos _ (by norm_num))]
    calc 2 ^ 52 * 2 ^ (Nat.log2 v - 52) = 2 ^ (52 + (Nat.log2 v - 52)) :=
          (pow_add 2 52 (Nat.log2 v - 52)).symm
      _ = 2 ^ Nat.log2 v := by rw [h52e]
      _ ≤ v := hself
  have hbase : 2 ^ 53 ≤ (v / 2 ^ (Nat.log2 v - 52)) * 2 ^ (Nat.log2 v - 52) := by
    calc (2 : ℕ) ^ 53 ≤ 2 ^ (52 + (Nat.log2 v - 52)) :=
          Nat.pow_le_pow_right (by norm_num) (by omega)
      _ = 2 ^ 52 * 2 ^ (Nat.log2 v - 52) := pow_add 2 52 (Nat.log2 v - 52)
      _ ≤ (v / 2 ^ (Nat.log2 v - 52)) * 2 ^ (Nat.log2 v - 52) :=
          Nat.mul_le_mul_right _ hq
  have hstep : (v / 2 ^ (Nat.log2 v - 52)) * 2 ^ (Nat.log2 v - 52) ≤
      (v / 2 ^ (Nat.log2 v - 52) + 1) * 2 ^ (Nat.log2 v - 52) :=
    Nat.mul_le_mul_right _ (Nat.le_succ _)
  rw [u64_as_f64, if_neg (not_lt.mpr h), roundNearestEven]
  split_ifs with h1 h2 h3
  · exact le_trans hbase hstep
  · exact hbase
  · exact hbase
  · exact le_trans hbase hstep

/-- C2: converting a u64 value within 0 ..= 2 ^ 53 - 1 to a host number and
converting that number back yields the value unchanged; for a value above
2 ^ 53 - 1 the native-to-host direction fails with a range error rather than
silently truncating. -/
theorem u64_roundtrip_and_precision_loss (v : ℕ) :
    (v ≤ 2 ^ 53 - 1 →
      u64.convert_into v = .ok (.fin ((v : ℕ) : ℚ)) ∧
      u64.convert_from (.fin ((v : ℕ) : ℚ)) = .ok v) ∧
    (2 ^ 53 - 1 < v → u64.convert_into v = .error (.precisionLoss v)) := by
  have hconst : (2 : ℕ) ^ 53 - 1 = 9007199254740991 := by norm_num
  constructor
  · intro hv
    have hlt : v < 2 ^ 53 := by omega
    have hcast : u64_as_f64 v = v := by rw [u64_as_f64, if_pos hlt]
    have hle : ((v : ℕ) : ℚ) ≤ MAX_SAFE_JS_INTEGER := by
      rw [MAX_SAFE_JS_INTEGER]
      exact_mod_cast (by omega : v ≤ 9007199254740991)
    constructor
    · rw [u64.convert_into, hcast, if_neg (not_lt.mpr hle)]
    · rw [u64.convert_from, if_pos, JsNum.toNatCast]
      · simp
      · rw [can_convert_iff_exact]
        exact ⟨(v : ℤ), by push_cast; rfl, by positivity, by push_cast at hle ⊢; exact hle⟩
  · intro hv
    have h53 : 2 ^ 53 ≤ v := by omega
    have hge := u64_as_f64_ge v h53
    rw [u64.convert_into, if_pos]
    rw [MAX_SAFE_JS_INTEGER]
    have hn : (9007199254740992 : ℕ) ≤ u64_as_f64 v := le_trans (by norm_num) hge
    calc (9007199254740991 : ℚ) < 9007199254740992 := by norm_num
      _ ≤ ((u64_as_f64 v : ℕ) : ℚ) := by exact_mod_cast hn

theorem u64_roundtrip_and_precision_loss_witness :
    (u64.convert_into 2 = .ok (.fin ((2 : ℕ) : ℚ)) ∧
      u64.convert_from (.fin ((2 : ℕ) : ℚ)) = .ok 2) ∧
    u64.convert_into (2 ^ 53) = .error (.precisionLoss (2 ^ 53)) :=
  ⟨(u64_roundtrip_and_precision_loss 2).1 (by norm_num),
   (u64_roundtrip_and_precision_loss (2 ^ 53)).2 (by norm_num)⟩

/-- calculate_checksum_for_immutable_buffer (convert.rs): hash the whole
buffer when debug logging is enabled or the buffer is shorter than
LIMIT = 1024 bytes; otherwise hash only the first 1024 bytes. The std
DefaultHasher lives outside this repository, so the hash function over the
selected bytes is a parameter. -/
def calculate_checksum_for_immutable_buffer (hasher : List ℕ → ℕ)
    (debugLogEnabled : Bool) (buffer : List ℕ) : ℕ :=
  if debugLogEnabled || buffer.length < 1024 then hasher buffer
  else hasher (buffer.take 1024)

/-- A borrowed byte slice: either the static empty slice (chosen when the
buffer length is 0, so no pointer into the buffer is taken) or a
lifetime-extended view that aliases the bytes of the host buffer. The view
records the contents observed at borrow time. -/
inductive SliceRef where
  | emptyStatic : SliceRef
  | view (bytes : List ℕ) : SliceRef
deriving DecidableEq

/-- The bytes a slice reads at the moment it was created. -/
def SliceRef.read : SliceRef → List ℕ
  | .emptyStatic => []
  | .view bytes => bytes

/-- AssumedImmutableBuffer (convert.rs): the borrowed slice plus the checksum
computed at borrow time. -/
structure AssumedImmutableBuffer where
  buffer : SliceRef
  hash : ℕ
deriving DecidableEq

/-- AssumedImmutableBuffer::new: take the empty slice when the buffer is
empty, otherwise a lifetime-extended view; then checksum the slice. -/
def AssumedImmutableBuffer.new (hasher : List ℕ → ℕ) (debug : Bool)
    (contents : List ℕ) : AssumedImmutableBuffer :=
  let buffer : SliceRef :=
    if contents.length = 0 then .emptyStatic else .view contents
  ⟨buffer, calculate_checksum_for_immutable_buffer hasher debug buffer.read⟩

/-- ArgTypeInfo load_from for a byte slice argument: the stored slice. -/
def AssumedImmutableBuffer.load_from (self : AssumedImmutableBuffer) : List ℕ :=
  self.buffer.read

/-- Drop for AssumedImmutableBuffer: recompute the checksum of the bytes the
slice refers to now — for a view that is the release-time contents of the
aliased host buffer, for the static empty slice it is still empty — and emit
one error log line on mismatch. It only produces log lines: it cannot panic
or abort. -/
def AssumedImmutableBuffer.drop (hasher : List ℕ → ℕ) (debug : Bool)
    (self : AssumedImmutableBuffer) (releaseContents : List ℕ) : List String :=
  let nowRead : List ℕ :=
    match self.buffer with
    | .emptyStatic => []
    | .view _ => releaseContents
  if self.hash = calculate_checksum_for_immutable_buffer hasher debug nowRead then []
  else ["buffer modified while in use"]

/-- PersistentAssumedImmutableBuffer (convert.rs): a GC root over the host
buffer (the root itself carries no data and is modelled as a unit token),
a possibly-null pointer to the first byte, the length, and the borrow-time
checksum. -/
structure PersistentAssumedImmutableBuffer where
  owner : Unit
  buffer_start : Option ℕ
  buffer_len : ℕ
  hash : ℕ
deriving DecidableEq

/-- PersistentAssumedImmutableBuffer::new: root the buffer, store a null
pointer when the buffer is empty and its first-byte address otherwise, plus
the length and the checksum of the borrow-time contents. -/
def PersistentAssumedImmutableBuffer.new (hasher : List ℕ → ℕ) (debug : Bool)
    (ptr : ℕ) (contents : List ℕ) : PersistentAssumedImmutableBuffer :=
  ⟨(), if contents.length = 0 then none else some ptr, contents.length,
    calculate_checksum_for_immutable_buffer hasher debug contents⟩

/-- Deref for PersistentAssumedImmutableBuffer: the empty slice when the
stored pointer is null, otherwise the buffer_len bytes read from memory at
the stored pointer (memory is a parameter mapping pointer and length to
bytes; the null branch never consults it). -/
def PersistentAssumedImmutableBuffer.deref (mem : ℕ → ℕ → List ℕ)
    (self : PersistentAssumedImmutableBuffer) : List ℕ :=
  match self.buffer_start with
  | none => []
  | some p => mem p self.buffer_len

/-- Finalize for PersistentAssumedImmutableBuffer: recompute the checksum of
the dereferenced bytes and emit one error log line on mismatch, then release
the root. It only produces log lines: it cannot panic or abort. -/
def PersistentAssumedImmutableBuffer.finalize (hasher : List ℕ → ℕ)
    (debug : Bool) (mem : ℕ → ℕ → List ℕ)
    (self : PersistentAssumedImmutableBuffer) : List String :=
  if self.hash = calculate_checksum_for_immutable_buffer hasher debug (self.deref mem)
  then []
  else ["buffer modified while in use"]

/-- C7: the checksum hashes exactly the first 1024 bytes unless verbose
diagnostics are enabled, in which case it hashes the whole buffer; a buffer
shorter than 1024 bytes is always hashed whole; and the checksum is a pure
function of the hasher, the diagnostics setting and the buffer. -/
theorem checksum_policy (hasher : List ℕ → ℕ) (debug : Bool) (b : List ℕ) :
    calculate_checksum_for_immutable_buffer hasher debug b =
      hasher (if debug then b else b.take 1024) ∧
    (b.length < 1024 → calculate_checksum_for_immutable_buffer hasher debug b = hasher b) ∧
    (debug = true → calculate_checksum_for_immutable_buffer hasher debug b = hasher b) ∧
    calculate_checksum_for_immutable_buffer hasher debug b =
      calculate_checksum_for_immutable_buffer hasher debug b := by
  refine ⟨?_, ?_, ?_, rfl⟩
  · rw [calculate_checksum_for_immutable_buffer]
    cases debug with
    | true => simp
    | false =>
      simp only [Bool.false_or, if_false]
      by_cases hlen : b.length < 1024
      · simp [hlen, List.take_of_length_le (le_of_lt hlen)]
      · simp [hlen]
  · intro hlen
    rw [calculate_checksum_for_immutable_buffer, if_pos (by simp [hlen])]
  · intro hdebug
    rw [calculate_checksum_for_immutable_buffer, if_pos (by simp [hdebug])]

theorem checksum_policy_witness :
    (calculate_checksum_for_immutable_buffer List.length false [1, 2, 3] =
      List.length [1, 2, 3]) ∧
    (calculate_checksum_for_immutable_buffer List.length true [1, 2, 3] =
      List.length [1, 2, 3]) :=
  ⟨(checksum_policy List.length false [1, 2, 3]).2.1 (by decide),
   (checksum_policy List.length true [1, 2, 3]).2.2.1 rfl⟩

/-- A concrete stand-in hash function used in closed statements. The
counterexample below does not depend on which hash function stands in for
the external DefaultHasher: it only uses that equal byte sequences hash
equally. -/
def polyHash (l : List ℕ) : ℕ :=
  l.foldl (fun a b => (a * 131 + b) % 18446744073709551616) 0

theorem take_1024_agree :
    List.take 1024 (List.replicate 1025 (0 : ℕ)) =
      List.take 1024 (List.replicate 1024 (0 : ℕ) ++ [1]) := by
  rw [List.take_replicate, List.take_left' (by rw [List.length_replicate]),
    Nat.min_def, if_pos (by norm_num)]

theorem aib_new_nonempty (hasher : List ℕ → ℕ) (debug : Bool)
    (contents : List ℕ) (h : ¬ contents.length = 0) :
    AssumedImmutableBuffer.new hasher debug contents =
      ⟨.view contents, calculate_checksum_for_immutable_buffer hasher debug contents⟩ := by
  simp [AssumedImmutableBuffer.new, SliceRef.read, h]

theorem aib_drop_view (hasher : List ℕ → ℕ) (debug : Bool) (bytes : List ℕ)
    (h : ℕ) (releaseContents : List ℕ) :
    AssumedImmutableBuffer.drop hasher debug ⟨.view bytes, h⟩ releaseContents =
      (if h = calculate_checksum_for_immutable_buffer hasher debug releaseContents
       then [] else ["buffer modified while in use"]) := rfl

theorem buffer_mutation_beyond_checksum_limit_unlogged :
    List.replicate 1025 (0 : ℕ) ≠ List.replicate 1024 (0 : ℕ) ++ [1] ∧
    List.take 1024 (List.replicate 1025 (0 : ℕ)) =
      List.take 1024 (List.replicate 1024 (0 : ℕ) ++ [1]) ∧
    AssumedImmutableBuffer.drop polyHash false
      (AssumedImmutableBuffer.new polyHash false (List.replicate 1025 0))
      (List.replicate 1024 0 ++ [1]) = [] := by
  refine ⟨?_, take_1024_agree, ?_⟩
  · intro h
    have hL : (List.replicate 1025 (0 : ℕ))[1024]? = some 0 :=
      List.getElem?_replicate_of_lt (by norm_num)
    have hR : (List.replicate 1024 (0 : ℕ) ++ [1])[1024]? = some 1 := by
      have hc := List.getElem?_concat_length (List.replicate 1024 (0 : ℕ)) 1
      rwa [List.length_replicate] at hc
    rw [h, hR] at hL
    exact absurd hL (by decide)
  · have hlen2 : (List.replicate 1024 (0 : ℕ) ++ [1]).length = 1025 := by
      rw [List.length_append, List.length_replicate]
      rfl
    have hcalc : calculate_checksum_for_immutable_buffer polyHash false
        (List.replicate 1025 (0 : ℕ)) =
        calculate_checksum_for_immutable_buffer polyHash false
          (List.replicate 1024 (0 : ℕ) ++ [1]) := by
      rw [calculate_checksum_for_immutable_buffer,
        calculate_checksum_for_immutable_buffer, List.length_replicate, hlen2,
        if_neg (by decide), if_neg (by decide), take_1024_agree]
    rw [aib_new_nonempty polyHash false (List.replicate 1025 (0 : ℕ))
        (by rw [List.length_replicate]; norm_num),
      aib_drop_view, if_pos hcalc]

/-- C4 amended: the transient borrow returns a slice equal to the buffer
contents at borrow time; release (Drop for the transient guard, Finalize for
the persistent one) logs exactly one integrity error when the release-time
checksum differs from the borrow-time checksum and logs nothing when they
agree — in particular an unmutated buffer logs nothing, but a mutation that
leaves the checksum unchanged (for example one confined to bytes beyond the
first 1024 with verbose diagnostics disabled) goes unlogged. Release only
returns log lines; it cannot panic or abort. -/
theorem buffer_guard_release_logs_iff_checksum_differs
    (hasher : List ℕ → ℕ) (debug : Bool) (ptr : ℕ) (mem : ℕ → ℕ → List ℕ)
    (b brel : List ℕ) (hlen : brel.length = b.length)
    (hmem : mem ptr b.length = brel) :
    (AssumedImmutableBuffer.new hasher debug b).load_from = b ∧
    (AssumedImmutableBuffer.new hasher debug b).drop hasher debug brel =
      (if calculate_checksum_for_immutable_buffer hasher debug brel =
          calculate_checksum_for_immutable_buffer hasher debug b
       then [] else ["buffer modified while in use"]) ∧
    (PersistentAssumedImmutableBuffer.new hasher debug ptr b).finalize hasher debug mem =
      (if calculate_checksum_for_immutable_buffer hasher debug brel =
          calculate_checksum_for_immutable_buffer hasher debug b
       then [] else ["buffer modified while in use"]) := by
  by_cases hb : b.length = 0
  · have hbnil : b = [] := List.length_eq_zero.mp hb
    have hrnil : brel = [] := List.length_eq_zero.mp (by rw [hlen, hb])
    subst hbnil
    subst hrnil
    refine ⟨rfl, ?_, ?_⟩
    · simp [AssumedImmutableBuffer.new, AssumedImmutableBuffer.drop, SliceRef.read]
    · simp [PersistentAssumedImmutableBuffer.new,
        PersistentAssumedImmutableBuffer.finalize,
        PersistentAssumedImmutableBuffer.deref]
  · have hview : (AssumedImmutableBuffer.new hasher debug b).buffer = .view b := by
      simp [AssumedImmutableBuffer.new, hb]
    refine ⟨?_, ?_, ?_⟩
    · simp [AssumedImmutableBuffer.new, AssumedImmutableBuffer.load_from,
        SliceRef.read, hb]
    · by_cases hcs : calculate_checksum_for_immutable_buffer hasher debug brel =
          calculate_checksum_for_immutable_buffer hasher debug b
      · simp [AssumedImmutableBuffer.new, AssumedImmutableBuffer.drop,
          SliceRef.read, hb, hcs]
      · have hcs2 : ¬ (calculate_checksum_for_immutable_buffer hasher debug b =
            calculate_checksum_for_immutable_buffer hasher debug brel) :=
          fun hcseq => hcs hcseq.symm
        simp [AssumedImmutableBuffer.new, AssumedImmutableBuffer.drop,
          SliceRef.read, hb, hcs, hcs2]
    · have hderef : PersistentAssumedImmutableBuffer.deref mem
          (PersistentAssumedImmutableBuffer.new hasher debug ptr b) = brel := by
        simp [PersistentAssumedImmutableBuffer.new,
          PersistentAssumedImmutableBuffer.deref, hb, hmem]
      simp only [PersistentAssumedImmutableBuffer.finalize, hderef]
      have hhash : (PersistentAssumedImmutableBuffer.new hasher debug ptr b).hash =
          calculate_checksum_for_immutable_buffer hasher debug b := rfl
      rw [hhash]
      by_cases hcs : calculate_checksum_for_immutable_buffer hasher debug brel =
          calculate_checksum_for_immutable_buffer hasher debug b
      · rw [if_pos hcs.symm, if_pos hcs]
      · rw [if_neg (fun h => hcs h.symm), if_neg hcs]

theorem buffer_guard_release_logs_iff_checksum_differs_witness :
    (AssumedImmutableBuffer.new polyHash false [5]).load_from = [5] ∧
    (AssumedImmutableBuffer.new polyHash false [5]).drop polyHash false [9] =
      (if calculate_checksum_for_immutable_buffer polyHash false [9] =
          calculate_checksum_for_immutable_buffer polyHash false [5]
       then [] else ["buffer modified while in use"]) ∧
    (PersistentAssumedImmutableBuffer.new polyHash false 0 [5]).finalize polyHash
      false (fun _ _ => [9]) =
      (if calculate_checksum_for_immutable_buffer polyHash false [9] =
          calculate_checksum_for_immutable_buffer polyHash false [5]
       then [] else ["buffer modified while in use"]) :=
  buffer_guard_release_logs_iff_checksum_differs polyHash false 0
    (fun _ _ => [9]) [5] [9] rfl rfl

/-- C10: for a zero-length host buffer both guards are total and
well-defined: the transient borrow takes the static empty slice (no pointer
into the buffer) and loads as the empty slice, and the persistent guard
stores a null pointer with length 0 and dereferences to the empty slice for
every memory state, never reading memory through the null pointer. -/
theorem zero_length_buffer_guards_total (hasher : List ℕ → ℕ) (debug : Bool)
    (ptr : ℕ) (mem : ℕ → ℕ → List ℕ) :
    (AssumedImmutableBuffer.new hasher debug []).buffer = .emptyStatic ∧
    (AssumedImmutableBuffer.new hasher debug []).load_from = [] ∧
    (PersistentAssumedImmutableBuffer.new hasher debug ptr []).buffer_start = none ∧
    (PersistentAssumedImmutableBuffer.new hasher debug ptr []).buffer_len = 0 ∧
    PersistentAssumedImmutableBuffer.deref mem
      (PersistentAssumedImmutableBuffer.new hasher debug ptr []) = [] :=
  ⟨rfl, rfl, rfl, rfl, rfl⟩

/-- A host JavaScript value as seen at the boundary. -/
inductive JsVal where
  | null : JsVal
  | undefined : JsVal
  | number (n : JsNum) : JsVal
  | str (s : String) : JsVal
  | boolean (b : Bool) : JsVal
  | buffer (bytes : List ℕ) : JsVal
  | object (id : ℕ) : JsVal
deriving DecidableEq

/-- A synchronous argument conversion contract (the ArgTypeInfo trait):
downcast from an untyped host value to the expected host argument type,
borrow into local storage, and load the Rust value from the storage
(mutating it, modelled by returning the updated storage). -/
structure SyncContract (ArgTy StoredTy RustTy : Type) where
  downcast : JsVal → Option ArgTy
  borrow : ArgTy → Except ConvErr StoredTy
  load_from : StoredTy → RustTy × StoredTy

/-- An asynchronous argument conversion contract (the AsyncArgTypeInfo
trait): like the synchronous one but saving into persistent storage. -/
structure AsyncContract (ArgTy StoredTy RustTy : Type) where
  downcast : JsVal → Option ArgTy
  save_async_arg : ArgTy → Except ConvErr StoredTy
  load_async_arg : StoredTy → RustTy × StoredTy

/-- FinalizableOption (convert.rs): a wrapper around Option that implements
Finalize. -/
structure FinalizableOption (σ : Type) where
  val : Option σ
deriving DecidableEq

/-- Finalize for FinalizableOption: finalize the wrapped storage when it is
present, do nothing when it is absent. The finalize action of the element
storage is a parameter producing a list of host-context effects. -/
def FinalizableOption.finalize {σ ε : Type} (elemFinalize : σ → List ε)
    (self : FinalizableOption σ) : List ε :=
  match self.val with
  | some value => elemFinalize value
  | none => []

/-- ArgTypeInfo borrow for Option (convert.rs): null becomes absence before
any element handling; any other value must downcast to the element host type
or a type error is thrown; otherwise the element contract runs and its
storage is wrapped in some. -/
def optionBorrow {A S R : Type} (c : SyncContract A S R) (foreign : JsVal) :
    Except ConvErr (Option S) :=
  if foreign = .null then .ok none
  else
    match c.downcast foreign with
    | none => .error .typeError
    | some a => (c.borrow a).map some

/-- ArgTypeInfo load_from for Option (convert.rs): map the element load over
the stored option. -/
def optionLoadFrom {A S R : Type} (c : SyncContract A S R)
    (stored : Option S) : Option R × Option S :=
  match stored with
  | none => (none, none)
  | some s =>
    let p := c.load_from s
    (some p.1, some p.2)

/-- AsyncArgTypeInfo save_async_arg for Option (convert.rs): the same shape
as the synchronous borrow, saving into a FinalizableOption. -/
def optionSaveAsyncArg {A S R : Type} (c : AsyncContract A S R)
    (foreign : JsVal) : Except ConvErr (FinalizableOption S) :=
  if foreign = .null then .ok ⟨none⟩
  else
    match c.downcast foreign with
    | none => .error .typeError
    | some a => (c.save_async_arg a).map (fun s => ⟨some s⟩)

/-- AsyncArgTypeInfo load_async_arg for Option (convert.rs). -/
def optionLoadAsyncArg {A S R : Type} (c : AsyncContract A S R)
    (stored : FinalizableOption S) : Option R × FinalizableOption S :=
  match stored.val with
  | none => (none, ⟨none⟩)
  | some s =>
    let p := c.load_async_arg s
    (some p.1, ⟨some p.2⟩)

/-- C6: for the Optional adapter over any element contract, in both the
synchronous and asynchronous directions: host null always converts to
absence, whatever the element type; a non-null value that fails the
downcast to the element host type always fails with a type error; and a
non-null value of the correct type always delegates to the element contract
and wraps the resulting storage in some. -/
theorem option_adapter_conversion (A S R : Type) (c : SyncContract A S R)
    (ca : AsyncContract A S R) (foreign : JsVal) (a : A) :
    optionBorrow c .null = .ok none ∧
    optionSaveAsyncArg ca .null = .ok ⟨none⟩ ∧
    (¬ foreign = .null → c.downcast foreign = none →
      optionBorrow c foreign = .error .typeError) ∧
    (¬ foreign = .null → ca.downcast foreign = none →
      optionSaveAsyncArg ca foreign = .error .typeError) ∧
    (¬ foreign = .null → c.downcast foreign = some a →
      optionBorrow c foreign = (c.borrow a).map some) ∧
    (¬ foreign = .null → ca.downcast foreign = some a →
      optionSaveAsyncArg ca foreign = (ca.save_async_arg a).map (fun s => ⟨some s⟩)) := by
  refine ⟨rfl, rfl, ?_, ?_, ?_, ?_⟩
  · intro hnull hdc
    rw [optionBorrow, if_neg hnull, hdc]
  · intro hnull hdc
    rw [optionSaveAsyncArg, if_neg hnull, hdc]
  · intro hnull hdc
    rw [optionBorrow, if_neg hnull, hdc]
  · intro hnull hdc
    rw [optionSaveAsyncArg, if_neg hnull, hdc]

theorem option_adapter_conversion_witness :
    optionBorrow
      ⟨fun v => match v with | .number n => some n | _ => none,
       fun n => .ok n, fun n => (n, n)⟩ (.str "x") =
      (.error .typeError : Except ConvErr (Option JsNum)) ∧
    optionBorrow
      ⟨fun v => match v with | .number n => some n | _ => none,
       fun n => .ok n, fun n => (n, n)⟩ (.number (.fin 3)) =
      .ok (some (.fin 3)) ∧
    optionSaveAsyncArg
      ⟨fun v => match v with | .boolean b => some b | _ => none,
       fun b => .ok b, fun b => (b, b)⟩ (.number (.fin 3)) =
      (.error .typeError : Except ConvErr (FinalizableOption Bool)) ∧
    optionSaveAsyncArg
      ⟨fun v => match v with | .boolean b => some b | _ => none,
       fun b => .ok b, fun b => (b, b)⟩ (.boolean true) =
      .ok ⟨some true⟩ := by
  refine ⟨?_, ?_, ?_, ?_⟩
  · exact (option_adapter_conversion JsNum JsNum JsNum
      ⟨fun v => match v with | .number n => some n | _ => none,
       fun n => .ok n, fun n => (n, n)⟩
      ⟨fun _ => none, fun n => .ok n, fun n => (n, n)⟩
      (.str "x") (.fin 0)).2.2.1 (by decide) rfl
  · exact (option_adapter_conversion JsNum JsNum JsNum
      ⟨fun v => match v with | .number n => some n | _ => none,
       fun n => .ok n, fun n => (n, n)⟩
      ⟨fun _ => none, fun n => .ok n, fun n => (n, n)⟩
      (.number (.fin 3)) (.fin 3)).2.2.2.2.1 (by decide) rfl
  · exact (option_adapter_conversion Bool Bool Bool
      ⟨fun _ => none, fun b => .ok b, fun b => (b, b)⟩
      ⟨fun v => match v with | .boolean b => some b | _ => none,
       fun b => .ok b, fun b => (b, b)⟩
      (.number (.fin 3)) true).2.2.2.1 (by decide) rfl
  · exact (option_adapter_conversion Bool Bool Bool
      ⟨fun _ => none, fun b => .ok b, fun b => (b, b)⟩
      ⟨fun v => match v with | .boolean b => some b | _ => none,
       fun b => .ok b, fun b => (b, b)⟩
      (.boolean true) true).2.2.2.2.2 (by decide) rfl

/-- C9: finalizing the Optional adapter persistent storage invokes exactly
the element finalize action when the wrapped storage is present and performs
no action at all when it is absent. -/
theorem finalizable_option_finalize_behavior (σ ε : Type)
    (elemFinalize : σ → List ε) (s : σ) :
    FinalizableOption.finalize elemFinalize ⟨some s⟩ = elemFinalize s ∧
    FinalizableOption.finalize elemFinalize ⟨none⟩ = [] :=
  ⟨rfl, rfl⟩

/-- ArgTypeInfo borrow for a SimpleArgTypeInfo type (convert.rs): convert
immediately and store the value in an Option. The element conversion is the
contract parameter. -/
def simpleBorrow {α : Type} (convert_from : JsVal → Except ConvErr α)
    (foreign : JsVal) : Except ConvErr (Option α) :=
  (convert_from foreign).map some

/-- ArgTypeInfo load_from for a SimpleArgTypeInfo type (convert.rs): take
the stored value, leaving none behind, and panic with the message
"should only be loaded once" if it was already taken. The panic is modelled
as the error branch of the result; a successful load returns the value and
the updated (emptied) storage. -/
def simpleLoadFrom {α : Type} (stored : Option α) :
    Except String (α × Option α) :=
  match stored with
  | some v => .ok (v, none)
  | none => .error "should only be loaded once"

/-- DefaultFinalize (node module): a wrapper whose Finalize implementation
does nothing, constructed around the converted value and read through its
single field, exactly as used by convert.rs. -/
structure DefaultFinalize (α : Type) where
  val : α
deriving DecidableEq

/-- AsyncArgTypeInfo save_async_arg for a SimpleArgTypeInfo type
(convert.rs): convert immediately and store the value in a
DefaultFinalize-wrapped Option. -/
def simpleSaveAsyncArg {α : Type} (convert_from : JsVal → Except ConvErr α)
    (foreign : JsVal) : Except ConvErr (DefaultFinalize (Option α)) :=
  (convert_from foreign).map (fun v => ⟨some v⟩)

/-- AsyncArgTypeInfo load_async_arg for a SimpleArgTypeInfo type
(convert.rs): take the stored value, panicking with the message
"should only be loaded once" if it was already taken. -/
def simpleLoadAsyncArg {α : Type} (stored : DefaultFinalize (Option α)) :
    Except String (α × DefaultFinalize (Option α)) :=
  match stored.val with
  | some v => .ok (v, ⟨none⟩)
  | none => .error "should only be loaded once"

/-- C8: for a move-once (SimpleArgTypeInfo) argument, in both the
synchronous and asynchronous protocols: storage produced by a successful
borrow always holds a value, so the first load succeeds (the failure branch
is unreachable when load runs at most once after borrow) and empties the
storage; loading the emptied storage a second time fails loudly with the
panic message "should only be loaded once" instead of yielding a value. -/
theorem move_once_load_exactly_once (α : Type)
    (convert_from : JsVal → Except ConvErr α) (foreign : JsVal)
    (s : Option α) (d : DefaultFinalize (Option α)) :
    (simpleBorrow convert_from foreign = .ok s →
      ∃ v, s = some v ∧ simpleLoadFrom s = .ok (v, none)) ∧
    simpleLoadFrom (none : Option α) = .error "should only be loaded once" ∧
    (simpleSaveAsyncArg convert_from foreign = .ok d →
      ∃ v, d = ⟨some v⟩ ∧ simpleLoadAsyncArg d = .ok (v, ⟨none⟩)) ∧
    simpleLoadAsyncArg (⟨none⟩ : DefaultFinalize (Option α)) =
      .error "should only be loaded once" := by
  refine ⟨?_, rfl, ?_, rfl⟩
  · intro hok
    rw [simpleBorrow] at hok
    cases hcv : convert_from foreign with
    | ok v =>
      rw [hcv] at hok
      cases hok
      exact ⟨v, rfl, rfl⟩
    | error e =>
      rw [hcv] at hok
      cases hok
  · intro hok
    rw [simpleSaveAsyncArg] at hok
    cases hcv : convert_from foreign with
    | ok v =>
      rw [hcv] at hok
      cases hok
      exact ⟨v, rfl, rfl⟩
    | error e =>
      rw [hcv] at hok
      cases hok

theorem move_once_load_exactly_once_witness :
    (∃ v, some (7 : ℕ) = some v ∧
      simpleLoadFrom (some (7 : ℕ)) = .ok (v, none)) ∧
    simpleLoadFrom (none : Option ℕ) = .error "should only be loaded once" ∧
    (∃ v, (⟨some (7 : ℕ)⟩ : DefaultFinalize (Option ℕ)) = ⟨some v⟩ ∧
      simpleLoadAsyncArg (⟨some (7 : ℕ)⟩ : DefaultFinalize (Option ℕ)) =
        .ok (v, ⟨none⟩)) ∧
    simpleLoadAsyncArg (⟨none⟩ : DefaultFinalize (Option ℕ)) =
      .error "should only be loaded once" :=
  ⟨(move_once_load_exactly_once ℕ (fun _ => .ok 7) .null (some 7)
      ⟨some 7⟩).1 rfl,
   (move_once_load_exactly_once ℕ (fun _ => .ok 7) .null (some 7)
      ⟨some 7⟩).2.1,
   (move_once_load_exactly_once ℕ (fun _ => .ok 7) .null (some 7)
      ⟨some 7⟩).2.2.1 rfl,
   (move_once_load_exactly_once ℕ (fun _ => .ok 7) .null (some 7)
      ⟨some 7⟩).2.2.2⟩

/-- NATIVE_HANDLE_PROPERTY (convert.rs): the property on JavaScript wrapper
objects that carries the boxed Rust value. -/
def NATIVE_HANDLE_PROPERTY : String := "_nativeHandle"

/-- A host object as seen by property lookup: reading a property can throw
(a getter may run arbitrary JavaScript), so it yields a NeonResult. -/
structure JsObjectModel where
  get : String → Except Unit JsVal

/-- PersistentBoxedValue (convert.rs): the GC root over the wrapper object
(a unit token here) plus the validated pointer to the embedded value,
modelled by the value itself. -/
structure PersistentBoxedValue (T : Type) where
  owner : Unit
  value_ptr : T

/-- PersistentBoxedValue::new (convert.rs): read the well-known property
(can throw), downcast it to the expected box type (can throw), and only
after both fallible steps succeed create the GC root over the wrapper. The
second component counts the roots created during the call. -/
def PersistentBoxedValue.new {T : Type} (wrapper : JsObjectModel)
    (downcastBox : JsVal → Option T) :
    Except Unit (PersistentBoxedValue T) × ℕ :=
  match wrapper.get NATIVE_HANDLE_PROPERTY with
  | .error e => (.error e, 0)
  | .ok v =>
    match downcastBox v with
    | none => (.error (), 0)
    | some value => (.ok ⟨(), value⟩, 1)

/-- C5: constructing a persistent opaque handle creates a GC root exactly
when both fallible steps (property lookup and downcast) have succeeded; a
failed conversion returns an error having created no root at all. -/
theorem persistent_boxed_value_root_only_on_success (T : Type)
    (wrapper : JsObjectModel) (downcastBox : JsVal → Option T) :
    (PersistentBoxedValue.new wrapper downcastBox).2 =
      (if (PersistentBoxedValue.new wrapper downcastBox).1.isOk then 1 else 0) := by
  cases hget : wrapper.get NATIVE_HANDLE_PROPERTY with
  | error e =>
    simp [PersistentBoxedValue.new, hget, Except.isOk, Except.toBool]
  | ok v =>
    cases hdc : downcastBox v with
    | none =>
      simp [PersistentBoxedValue.new, hget, hdc, Except.isOk, Except.toBool]
    | some value =>
      simp [PersistentBoxedValue.new, hget, hdc, Except.isOk, Except.toBool]

/-- ERRORS_PROPERTY_NAME (error.rs): the module property holding the table
of registered error classes. -/
def ERRORS_PROPERTY_NAME : String := "Errors"

/-- A log line emitted while mapping an error. The warning in the source is
formatted from the class name and the stringified secondary failure; the
class name is recorded structurally. -/
inductive LogEntry where
  | warnCouldNotConstruct (name : String) : LogEntry
deriving DecidableEq

/-- A registered host error class: constructing an instance runs JavaScript
and can therefore throw. The instance type is a parameter. -/
structure JsErrorClass (ι : Type) where
  construct : List String → Except Unit ι

/-- The object stored under the Errors property: looking up a name and
downcasting it to a function can throw. -/
structure ErrorsModule (ι : Type) where
  lookupFunction : String → Except Unit (JsErrorClass ι)

/-- The native module handed to error mapping. Reading its Errors property
and downcasting the result to an object can throw; that combined step is
the field here, keyed in the source by ERRORS_PROPERTY_NAME. -/
structure NodeModule (ι : Type) where
  errorsModule : Except Unit (ErrorsModule ι)

/-- new_js_error (error.rs): inside a try/catch, read the Errors property of
the module, look up the class by name, downcast, and construct it with the
given arguments; on success return the instance with no logging, on any
failure return none after logging one warning naming the class. -/
def new_js_error {ι : Type} (module : NodeModule ι) (name : String)
    (args : List String) : Option ι × List LogEntry :=
  let attempt : Except Unit ι :=
    match module.errorsModule with
    | .error e => .error e
    | .ok errors =>
      match errors.lookupFunction name with
      | .error e => .error e
      | .ok errorClass => errorClass.construct args
  match attempt with
  | .ok inst => (some inst, [])
  | .error _ => (none, [.warnCouldNotConstruct name])

theorem new_js_error_spec {ι : Type} (module : NodeModule ι) (name : String)
    (args : List String) :
    (∃ inst, new_js_error module name args = (some inst, [])) ∨
    new_js_error module name args = (none, [.warnCouldNotConstruct name]) := by
  rw [new_js_error]
  cases module.errorsModule with
  | error e => exact Or.inr rfl
  | ok errors =>
    dsimp only
    cases errors.lookupFunction name with
    | error e => exact Or.inr rfl
    | ok errorClass =>
      dsimp only
      cases errorClass.construct args with
      | error e => exact Or.inr rfl
      | ok inst => exact Or.inl ⟨inst, rfl⟩

/-- SignalProtocolError as seen by the error mapping in error.rs: the two
error categories with dedicated handling, and a stand-in for every other
category (all of which fall into the catch-all match arm). -/
inductive SignalProtocolError where
  | untrustedIdentity (addrName : String) : SignalProtocolError
  | sealedSenderSelfSend : SignalProtocolError
  | otherError (description : String) : SignalProtocolError
deriving DecidableEq

/-- The host exception produced by error mapping: either an instance of a
registered error class, or a generic error built from a message. -/
inductive ThrownException (ι : Type) where
  | specificInstance (inst : ι) : ThrownException ι
  | genericError (message : String) : ThrownException ι

/-- SignalNodeError::throw for SignalProtocolError (error.rs): an
UntrustedIdentity error first tries the registered UntrustedIdentityError
class with the conflicting identity name as its single argument, a
SealedSenderSelfSend error tries its class with the stringified error, and
on a missing or failing class both fall back to a generic error carrying
the stringified native error; every other category goes straight to the
generic error without consulting the registry. The Display implementation
for the native error lives outside the two source files, so the
stringification is the parameter toStr. -/
def SignalProtocolError.throw {ι : Type}
    (toStr : SignalProtocolError → String) (module : NodeModule ι)
    (e : SignalProtocolError) : ThrownException ι × List LogEntry :=
  match e with
  | .untrustedIdentity addrName =>
    match new_js_error module "UntrustedIdentityError" [addrName] with
    | (some inst, logs) => (.specificInstance inst, logs)
    | (none, logs) => (.genericError (toStr (.untrustedIdentity addrName)), logs)
  | .sealedSenderSelfSend =>
    match new_js_error module "SealedSenderSelfSend"
        [toStr .sealedSenderSelfSend] with
    | (some inst, logs) => (.specificInstance inst, logs)
    | (none, logs) => (.genericError (toStr .sealedSenderSelfSend), logs)
  | .otherError description =>
    (.genericError (toStr (.otherError description)), [])

/-- C3: mapping a native UntrustedIdentity error throws an instance of the
registered UntrustedIdentityError class constructed with the conflicting
identity name as its single argument when lookup and construction succeed,
with nothing logged; when lookup or construction fails for any reason the
mapping still returns normally (the secondary failure is not propagated),
logging one warning and throwing a generic exception whose message is the
native error's string form; and every other error category skips the lookup
entirely, throwing the generic exception with no logging. -/
theorem untrusted_identity_error_mapping (ι : Type)
    (toStr : SignalProtocolError → String) (module : NodeModule ι)
    (em : ErrorsModule ι) (errorClass : JsErrorClass ι) (inst : ι)
    (addrName description : String) :
    (module.errorsModule = .ok em →
      em.lookupFunction "UntrustedIdentityError" = .ok errorClass →
      errorClass.construct [addrName] = .ok inst →
      SignalProtocolError.throw toStr module (.untrustedIdentity addrName) =
        (.specificInstance inst, [])) ∧
    ((new_js_error module "UntrustedIdentityError" [addrName]).1 = none →
      SignalProtocolError.throw toStr module (.untrustedIdentity addrName) =
        (.genericError (toStr (.untrustedIdentity addrName)),
         [.warnCouldNotConstruct "UntrustedIdentityError"])) ∧
    SignalProtocolError.throw toStr module (.otherError description) =
      (.genericError (toStr (.otherError description)), []) := by
  refine ⟨?_, ?_, rfl⟩
  · intro hem hlookup hconstruct
    have hnew : new_js_error module "UntrustedIdentityError" [addrName] =
        (some inst, []) := by
      rw [new_js_error]
      simp only [hem, hlookup, hconstruct]
    rw [SignalProtocolError.throw, hnew]
  · intro hnone
    rcases new_js_error_spec module "UntrustedIdentityError" [addrName] with ⟨i, hi⟩ | hno
    · rw [hi] at hnone
      simp at hnone
    · rw [SignalProtocolError.throw, hno]

theorem untrusted_identity_error_mapping_witness :
    SignalProtocolError.throw (fun _ => "untrusted identity")
      (⟨.ok ⟨fun _ => .ok ⟨fun args => .ok args⟩⟩⟩ : NodeModule (List String))
      (.untrustedIdentity "alice") =
      (.specificInstance ["alice"], []) ∧
    SignalProtocolError.throw (fun _ => "untrusted identity")
      (⟨.error ()⟩ : NodeModule (List String))
      (.untrustedIdentity "alice") =
      (.genericError "untrusted identity",
       [.warnCouldNotConstruct "UntrustedIdentityError"]) ∧
    SignalProtocolError.throw (fun _ => "other failure")
      (⟨.error ()⟩ : NodeModule (List String)) (.otherError "boom") =
      (.genericError "other failure", []) :=
  ⟨(untrusted_identity_error_mapping (List String) (fun _ => "untrusted identity")
      ⟨.ok ⟨fun _ => .ok ⟨fun args => .ok args⟩⟩⟩
      ⟨fun _ => .ok ⟨fun args => .ok args⟩⟩ ⟨fun args => .ok args⟩ ["alice"]
      "alice" "x").1 rfl rfl rfl,
   (untrusted_identity_error_mapping (List String) (fun _ => "untrusted identity")
      ⟨.error ()⟩ ⟨fun _ => .error ()⟩ ⟨fun _ => .error ()⟩ []
      "alice" "x").2.1 rfl,
   (untrusted_identity_error_mapping (List String) (fun _ => "other failure")
      ⟨.error ()⟩ ⟨fun _ => .error ()⟩ ⟨fun _ => .error ()⟩ []
      "alice" "boom").2.2⟩

end NodeBridge
